import Mathlib

/-!
Verification of the Twitter-Sentiment-Analysis repository.

This file gives a shallow embedding, in Lean 4, of the parts of the
repository that the specification's claims are about:

* `src/utils/inputFunctions.py` — the dataset loader `loadData`;
* `src/models/Model.py` — the `TrainTestSplit.split` holdout splitter;
* `src/explorations/hashtagExperiment.py` — `predict_by_hashtag`,
  `_hashtag_matters`, `hashtag_matters`;
* `src/experimentConfigs/experiment.py` — `report`, `getHypervisorFunction`,
  `getHyperoptValue`, and the hyperparameter-search branch of
  `launchExperimentFromDict`;
* `src/experimentConfigs/transformersPredictWithHashtag.py` —
  `submissionToFile`.

Conventions of the embedding:

* Python floats are modelled as exact rationals (`ℚ`); Python ints as `ℤ`
  or `ℕ` where they are manifestly non-negative.
* Randomness (`np.random.choice`, `random.sample`) is modelled by passing
  an arbitrary random stream `rng : ℕ → ℕ`; every outcome of the library
  routine corresponds to some stream.
* Fallible code returns `Except PyError`; the constructors name the Python
  exception class raised by the corresponding source line.
* The file system, where a function reads or writes one file, is modelled
  by explicit state passing (`Option` of the file's parsed content).
-/

/-- The Python exception classes raised by the embedded code. -/
inductive PyError where
  | attributeError
  | valueError
  | assertionError
  | nameError
  deriving DecidableEq, Repr

/-! ## Reporting log (`experiment.py`, function `report`) -/

/-- The report-log JSON document: `{num_experiments: int, experiments: [...]}`.
`α` is the type of one report record (`info`). -/
structure ReportDoc (α : Type) where
  num_experiments : ℤ
  experiments : List α
  deriving DecidableEq, Repr

/-- Embedding of `report(info, reportPath)` from `experiment.py`.
The file at `reportPath` is modelled as `state : Option (ReportDoc α)`
(`none` = no file exists).  If no file exists the document is initialised
to `{num_experiments: 0, experiments: []}`; otherwise the existing document
is read.  Then `num_experiments` is incremented by one, `info` is appended
to `experiments`, and the whole document is written back. -/
def report {α : Type} (info : α) (state : Option (ReportDoc α)) : ReportDoc α :=
  let alreadyReported := state.getD { num_experiments := 0, experiments := [] }
  { num_experiments := alreadyReported.num_experiments + 1,
    experiments := alreadyReported.experiments ++ [info] }

/-- Calling `report` once per record of `infos`, in order, threading the
file state. -/
def runReports {α : Type} (infos : List α) (state : Option (ReportDoc α)) :
    Option (ReportDoc α) :=
  infos.foldl (fun s i => some (report i s)) state

theorem runReports_some {α : Type} (infos : List α) (d : ReportDoc α) :
    runReports infos (some d) =
      some { num_experiments := d.num_experiments + infos.length,
             experiments := d.experiments ++ infos } := by
  induction infos generalizing d with
  | nil => simp [runReports]
  | cons i rest ih =>
    simp only [runReports, List.foldl_cons] at *
    rw [ih]
    simp only [report, Option.getD_some, List.append_assoc, List.cons_append,
      List.nil_append, Option.some.injEq, ReportDoc.mk.injEq, List.length_cons]
    refine ⟨by push_cast; ring, trivial⟩

/-- **C6.** Starting from a report path with no existing file, calling
`report` n times with n info records yields a log document whose
`num_experiments` equals n and whose `experiments` list contains exactly
those n records in call order; moreover each single call initialises
`{num_experiments: 0, experiments: []}` when the file is absent, and
otherwise increments the stored counter by one and appends the record.
(At least one call must happen for the document to exist at all.) -/
theorem report_append_spec {α : Type} (infos : List α) (hne : infos ≠ []) :
    runReports infos none =
      some { num_experiments := (infos.length : ℤ), experiments := infos } ∧
    (∀ info : α,
        report info none = { num_experiments := 1, experiments := [info] }) ∧
    (∀ (info : α) (d : ReportDoc α),
        report info (some d) =
          { num_experiments := d.num_experiments + 1,
            experiments := d.experiments ++ [info] }) := by
  refine ⟨?_, fun info => rfl, fun info d => rfl⟩
  cases infos with
  | nil => exact absurd rfl hne
  | cons i rest =>
    simp only [runReports, List.foldl_cons]
    have h := runReports_some rest (report i none)
    simp only [runReports] at h
    rw [h]
    simp only [report, Option.getD_none, List.nil_append, List.length_cons,
      Option.some.injEq, ReportDoc.mk.injEq]
    constructor
    · push_cast; ring
    · rfl

/-- Witness for `report_append_spec`: three distinct records, as in the
spec's testable property 3, yield `num_experiments = 3` and exactly those
three records in call order. -/
theorem report_append_spec_witness :
    ([7, 8, 9] : List ℤ) ≠ [] ∧
    runReports ([7, 8, 9] : List ℤ) none =
      some { num_experiments := 3, experiments := [7, 8, 9] } :=
  ⟨by decide, ((report_append_spec [7, 8, 9] (by decide)).1).trans (by rfl)⟩

/-! ## Dataset loader (`utils/inputFunctions.py`, function `loadData`) -/

/-- The five fixed-name raw text files read by `loadData`, each as its
list of lines. -/
structure DataFiles where
  train_pos : List String
  train_neg : List String
  train_pos_full : List String
  train_neg_full : List String
  test_data : List String
  deriving DecidableEq, Repr

/-- The declared type of the `ratio` argument of `loadData`:
`Union[str, float, int]`.  Floats are modelled as exact rationals. -/
inductive RatioArg where
  | str (s : String)
  | float (q : ℚ)
  | int (n : ℤ)
  deriving DecidableEq, Repr

/-- One step of sampling without replacement: pick the element at a
random position, remove it, recurse.  `step` indexes the random stream. -/
def sampleAux {α : Type} (rng : ℕ → ℕ) : ℕ → List α → ℕ → List α
  | _, _, 0 => []
  | step, pop, k + 1 =>
    let i := rng step % pop.length
    match pop.get? i with
    | some a => a :: sampleAux rng (step + 1) (pop.eraseIdx i) k
    | none => []

/-- Embedding of Python's `random.sample(population, k)`: returns `k`
distinct positions' elements (modelled by drawing a random position and
removing it, `k` times); raises `ValueError` when `k` exceeds the
population size. -/
def randomSample {α : Type} (rng : ℕ → ℕ) (pop : List α) (k : ℕ) :
    Except PyError (List α) :=
  if k ≤ pop.length then .ok (sampleAux rng 0 pop k) else .error .valueError

theorem sampleAux_length {α : Type} (rng : ℕ → ℕ) :
    ∀ (k : ℕ) (step : ℕ) (pop : List α), k ≤ pop.length →
      (sampleAux rng step pop k).length = k := by
  intro k
  induction k with
  | zero => intro step pop _; rfl
  | succ k ih =>
    intro step pop hk
    have hpos : 0 < pop.length := Nat.lt_of_lt_of_le (Nat.succ_pos k) hk
    have hi : rng step % pop.length < pop.length := Nat.mod_lt _ hpos
    simp only [sampleAux]
    rw [List.get?_eq_get hi]
    simp only [List.length_cons]
    rw [ih (step + 1) (pop.eraseIdx (rng step % pop.length))]
    rw [List.length_eraseIdx_of_lt hi]
    omega

/-- Embedding of `loadData(dataDirectory, ratio)` from
`utils/inputFunctions.py` (after the `ratio is None → "sub"` defaulting:
`RatioArg` ranges over the declared `Union[str, float, int]`).

* An `int` ratio is coerced to float (`ratio = float(ratio)`).
* The `assert isinstance(ratio, str) or isinstance(ratio, float)` line is
  unreachable after that coercion (every remaining case is a string or a
  float), and is modelled by the impossible fall-through returning
  `assertionError`.
* A float ratio outside `(0, 1]` raises `AttributeError`; a valid one
  draws `int(ratio * len(train_pos_full))` samples from **each** of the
  full positive and full negative sets (both sizes from the positive
  length); `int` truncation equals `⌊·⌋` here since the product is
  non-negative.
* A string ratio selects the full or sub sets, any other string raises
  `AttributeError`.

`loadDataSampleSize` is the `num_samples = int(ratio * len(train_pos_full))`
of line 45. -/
def loadDataSampleSize (files : DataFiles) (q : ℚ) : ℕ :=
  (Int.floor (q * (files.train_pos_full.length : ℚ))).toNat

def loadData (files : DataFiles) (rng : ℕ → ℕ) (ratio : RatioArg) :
    Except PyError (List String × List String × List String) :=
  let coerced := match ratio with
    | .int n => RatioArg.float (n : ℚ)
    | r => r
  match coerced with
  | .float q =>
    if q ≤ 0 ∨ 1 < q then .error .attributeError
    else
      let num_samples := loadDataSampleSize files q
      match randomSample rng files.train_pos_full num_samples with
      | .error e => .error e
      | .ok pos =>
        match randomSample rng files.train_neg_full num_samples with
        | .error e => .error e
        | .ok neg => .ok (pos, neg, files.test_data)
  | .str s =>
    if s = "full" then .ok (files.train_pos_full, files.train_neg_full, files.test_data)
    else if s = "sub" then .ok (files.train_pos, files.train_neg, files.test_data)
    else .error .attributeError
  | .int _ => .error .assertionError

theorem loadDataSampleSize_le_pos (files : DataFiles) (q : ℚ) (hq1 : q ≤ 1) :
    loadDataSampleSize files q ≤ files.train_pos_full.length := by
  unfold loadDataSampleSize
  have hP : (0 : ℚ) ≤ (files.train_pos_full.length : ℚ) := by positivity
  have h1 : q * (files.train_pos_full.length : ℚ) ≤ (files.train_pos_full.length : ℚ) := by
    nlinarith
  have h2 : Int.floor (q * (files.train_pos_full.length : ℚ)) ≤
      (files.train_pos_full.length : ℤ) := by
    calc Int.floor (q * (files.train_pos_full.length : ℚ))
        ≤ Int.floor ((files.train_pos_full.length : ℚ)) := Int.floor_le_floor h1
      _ = (files.train_pos_full.length : ℤ) := Int.floor_natCast _
  exact Int.toNat_le.mpr h2

/-- **C3.** Any ratio argument that is not the string `"full"`, not the
string `"sub"`, and not a float (or int coerced to float) in `(0, 1]`
makes `loadData` fail with the `AttributeError` of lines 44/56 of
`inputFunctions.py` (the spec's `InvalidInput`). -/
theorem loadData_invalid_ratio (files : DataFiles) (rng : ℕ → ℕ) :
    (∀ s : String, s ≠ "full" → s ≠ "sub" →
        loadData files rng (.str s) = .error .attributeError) ∧
    (∀ q : ℚ, ¬(0 < q ∧ q ≤ 1) →
        loadData files rng (.float q) = .error .attributeError) ∧
    (∀ n : ℤ, ¬(0 < (n : ℚ) ∧ (n : ℚ) ≤ 1) →
        loadData files rng (.int n) = .error .attributeError) := by
  refine ⟨?_, ?_, ?_⟩
  · intro s hfull hsub
    simp only [loadData]
    rw [if_neg hfull, if_neg hsub]
  · intro q hq
    simp only [loadData]
    rw [if_pos]
    rcases le_or_lt q 0 with h | h
    · exact Or.inl h
    · exact Or.inr (lt_of_not_le fun hle => hq ⟨h, hle⟩)
  · intro n hn
    simp only [loadData]
    rw [if_pos]
    rcases le_or_lt (n : ℚ) 0 with h | h
    · exact Or.inl h
    · exact Or.inr (lt_of_not_le fun hle => hn ⟨h, hle⟩)

/-- Empty data files, used to instantiate theorems at concrete inputs. -/
def emptyFiles : DataFiles := ⟨[], [], [], [], []⟩

/-- A concrete random stream. -/
def rng0 : ℕ → ℕ := fun _ => 0

/-- Witness for `loadData_invalid_ratio`: an unrecognized string, a float
above 1, and the integer 0 all fail with `AttributeError`. -/
theorem loadData_invalid_ratio_witness :
    loadData emptyFiles rng0 (.str "bogus") = .error .attributeError ∧
    loadData emptyFiles rng0 (.float 2) = .error .attributeError ∧
    loadData emptyFiles rng0 (.int 0) = .error .attributeError :=
  ⟨(loadData_invalid_ratio emptyFiles rng0).1 "bogus" (by decide) (by decide),
   (loadData_invalid_ratio emptyFiles rng0).2.1 2 (by norm_num),
   (loadData_invalid_ratio emptyFiles rng0).2.2 0 (by norm_num)⟩

/-- Concrete files on which C7, as stated, fails: the full positive set
has 4 lines, the full negative set has only 1. -/
def shortNegFiles : DataFiles := ⟨[], [], ["a", "b", "c", "d"], ["x"], []⟩

/-- **C7 counterexample.** With a full positive set of 4 lines, a full
negative set of 1 line and ratio 1.0 (a float in `(0, 1]`), `loadData`
does not return samples of size `⌊ratio * len(full_positive)⌋ = 4` at
all: `random.sample` on the negative set raises `ValueError` because the
requested size 4 exceeds its population 1. -/
theorem loadData_ratio_sizes_cex :
    loadData shortNegFiles rng0 (.float 1) = .error .valueError := by
  have hsize : loadDataSampleSize shortNegFiles 1 = 4 := by
    simp only [loadDataSampleSize, shortNegFiles, List.length_cons, List.length_nil]
    norm_num
    decide
  have hcond : ¬((1 : ℚ) ≤ 0 ∨ 1 < (1 : ℚ)) := by norm_num
  simp only [loadData, randomSample, if_neg hcond, hsize]
  simp only [shortNegFiles, List.length_cons, List.length_nil]
  norm_num

/-- **C7 (amended).** For every float ratio in `(0, 1]` **such that the
requested size `⌊ratio * len(full_positive)⌋` does not exceed the full
negative set's length**, `loadData` returns a positive and a negative
sample that both have exactly `⌊ratio * len(full_positive)⌋` elements —
both sizes derived from the positive full set's length. -/
theorem loadData_ratio_sample_sizes (files : DataFiles) (rng : ℕ → ℕ) (q : ℚ)
    (hq0 : 0 < q) (hq1 : q ≤ 1)
    (hneg : loadDataSampleSize files q ≤ files.train_neg_full.length) :
    ∃ pos neg,
      loadData files rng (.float q) = .ok (pos, neg, files.test_data) ∧
      pos.length = loadDataSampleSize files q ∧
      neg.length = loadDataSampleSize files q := by
  have hpos := loadDataSampleSize_le_pos files q hq1
  have hcond : ¬(q ≤ 0 ∨ 1 < q) := by push_neg; exact ⟨hq0, hq1⟩
  refine ⟨sampleAux rng 0 files.train_pos_full (loadDataSampleSize files q),
          sampleAux rng 0 files.train_neg_full (loadDataSampleSize files q),
          ?_, sampleAux_length rng _ 0 _ hpos, sampleAux_length rng _ 0 _ hneg⟩
  simp only [loadData, randomSample, if_neg hcond, if_pos hpos, if_pos hneg]

/-- Witness for `loadData_ratio_sample_sizes`: 4 positive lines, 2
negative lines, ratio 1/2: both samples have 2 elements. -/
def witFilesC7 : DataFiles := ⟨[], [], ["a", "b", "c", "d"], ["x", "y"], []⟩

theorem loadDataSampleSize_witFilesC7 : loadDataSampleSize witFilesC7 (1/2) = 2 := by
  simp only [loadDataSampleSize, witFilesC7, List.length_cons, List.length_nil]
  norm_num
  decide

theorem loadData_ratio_sample_sizes_witness :
    ((0 : ℚ) < 1/2 ∧ (1/2 : ℚ) ≤ 1 ∧
      loadDataSampleSize witFilesC7 (1/2) ≤ witFilesC7.train_neg_full.length) ∧
    (∃ pos neg,
      loadData witFilesC7 rng0 (.float (1/2)) = .ok (pos, neg, witFilesC7.test_data) ∧
      pos.length = loadDataSampleSize witFilesC7 (1/2) ∧
      neg.length = loadDataSampleSize witFilesC7 (1/2)) :=
  ⟨⟨by norm_num, by norm_num, by rw [loadDataSampleSize_witFilesC7]; decide⟩,
   loadData_ratio_sample_sizes witFilesC7 rng0 (1/2) (by norm_num) (by norm_num)
     (by rw [loadDataSampleSize_witFilesC7]; decide)⟩

/-- **C9.** For every float ratio in `(0, 1]` whose requested sample size
`⌊ratio * len(full_positive)⌋` exceeds the full negative set's length,
`loadData` fails with `ValueError` (the negative-set `random.sample` call
rejects a sample size larger than its population) — a direct consequence
of both sizes being derived from the positive set's length. -/
theorem loadData_negative_short_valueError (files : DataFiles) (rng : ℕ → ℕ) (q : ℚ)
    (hq0 : 0 < q) (hq1 : q ≤ 1)
    (hneg : files.train_neg_full.length < loadDataSampleSize files q) :
    loadData files rng (.float q) = .error .valueError := by
  have hpos := loadDataSampleSize_le_pos files q hq1
  have hcond : ¬(q ≤ 0 ∨ 1 < q) := by push_neg; exact ⟨hq0, hq1⟩
  simp only [loadData, randomSample, if_neg hcond, if_pos hpos,
    if_neg (not_le.mpr hneg)]

/-- Witness for `loadData_negative_short_valueError`: 4 positive lines,
1 negative line, ratio 3/4 → requested size 3 > 1 → `ValueError`. -/
theorem loadDataSampleSize_shortNeg : loadDataSampleSize shortNegFiles (3/4) = 3 := by
  simp only [loadDataSampleSize, shortNegFiles, List.length_cons, List.length_nil]
  norm_num
  decide

theorem loadData_negative_short_valueError_witness :
    ((0 : ℚ) < 3/4 ∧ (3/4 : ℚ) ≤ 1 ∧
      shortNegFiles.train_neg_full.length < loadDataSampleSize shortNegFiles (3/4)) ∧
    loadData shortNegFiles rng0 (.float (3/4)) = .error .valueError :=
  ⟨⟨by norm_num, by norm_num, by rw [loadDataSampleSize_shortNeg]; decide⟩,
   loadData_negative_short_valueError shortNegFiles rng0 (3/4)
     (by norm_num) (by norm_num) (by rw [loadDataSampleSize_shortNeg]; decide)⟩

/-! ## Holdout splitter (`models/Model.py`, class `TrainTestSplit`) -/

/-- Embedding of `np.random.choice(range(n), size)`: a list of `size`
indices drawn independently (i.e. with replacement) from `[0, n)`; the
stream `rng` supplies the random draws. -/
def npRandomChoice (n : ℕ) (size : ℕ) (rng : ℕ → ℕ) : List ℕ :=
  (List.range size).map fun i => rng i % n

/-- Embedding of `TrainTestSplit.split(X, y=None, test_size=0.1)` from
`models/Model.py`.  `xLen = len(X)`;
`train_size = int(xLen * (1 - test_size))` (`int` truncation equals `⌊·⌋`
for the non-negative products arising from a test fraction in `[0, 1]`);
`train_index = np.random.choice(range(xLen), size=train_size)` (a draw
**with replacement**); `test_index` keeps every index of `range(xLen)`
not occurring in `train_index`.  The generator yields exactly one pair,
modelled as a one-element list. -/
def TrainTestSplit_split (xLen : ℕ) (test_size : ℚ) (rng : ℕ → ℕ) :
    List (List ℕ × List ℕ) :=
  let train_size := (Int.floor ((xLen : ℚ) * (1 - test_size))).toNat
  let train_index := npRandomChoice xLen train_size rng
  let test_index := (List.range xLen).filter fun i => !(train_index.contains i)
  [(train_index, test_index)]

/-- **C4.** For every input size `N` and test fraction in `[0, 1]`, the
`"train_test_split"` strategy yields exactly one
`(train_indices, test_indices)` pair; `train_indices` has exactly
`⌊N * (1 - test_size)⌋` entries, each drawn (with replacement) from
`[0, N)`; and `test_indices` is exactly the set of indices in `[0, N)`
that occur nowhere in `train_indices` — in particular train and test
never share an index. -/
theorem trainTestSplit_spec (xLen : ℕ) (test_size : ℚ) (rng : ℕ → ℕ)
    (hN : 0 < xLen) (h0 : 0 ≤ test_size) (h1 : test_size ≤ 1) :
    ∃ tr te, TrainTestSplit_split xLen test_size rng = [(tr, te)] ∧
      (tr.length : ℤ) = Int.floor ((xLen : ℚ) * (1 - test_size)) ∧
      (∀ x ∈ tr, x < xLen) ∧
      (∀ i, i ∈ te ↔ (i < xLen ∧ i ∉ tr)) ∧
      (∀ i ∈ te, i ∉ tr) := by
  refine ⟨npRandomChoice xLen ((Int.floor ((xLen : ℚ) * (1 - test_size))).toNat) rng,
          (List.range xLen).filter
            (fun i => !((npRandomChoice xLen
              ((Int.floor ((xLen : ℚ) * (1 - test_size))).toNat) rng).contains i)),
          rfl, ?_, ?_, ?_, ?_⟩
  · have hnn : (0 : ℚ) ≤ (xLen : ℚ) * (1 - test_size) := by
      have : (0 : ℚ) ≤ (xLen : ℚ) := by positivity
      nlinarith
    have hfl : 0 ≤ Int.floor ((xLen : ℚ) * (1 - test_size)) :=
      Int.floor_nonneg.mpr hnn
    simp only [npRandomChoice, List.length_map, List.length_range]
    omega
  · intro x hx
    simp only [npRandomChoice, List.mem_map, List.mem_range] at hx
    obtain ⟨i, _, rfl⟩ := hx
    exact Nat.mod_lt _ hN
  · intro i
    simp [List.mem_filter, List.mem_range]
  · intro i hi
    simp [List.mem_filter, List.mem_range] at hi
    exact hi.2

/-- Witness for `trainTestSplit_spec` at the spec's concrete case:
`N = 100`, default `test_size = 0.1` — the train draw has
`⌊100 * 0.9⌋ = 90` entries. -/
theorem trainTestSplit_spec_witness :
    (0 < 100 ∧ (0 : ℚ) ≤ 1/10 ∧ (1/10 : ℚ) ≤ 1) ∧
    (∃ tr te, TrainTestSplit_split 100 (1/10) (fun i => i) = [(tr, te)] ∧
      (tr.length : ℤ) = Int.floor ((100 : ℚ) * (1 - 1/10)) ∧
      (∀ x ∈ tr, x < 100) ∧
      (∀ i, i ∈ te ↔ (i < 100 ∧ i ∉ tr)) ∧
      (∀ i ∈ te, i ∉ tr)) :=
  ⟨⟨by norm_num, by norm_num, by norm_num⟩,
   trainTestSplit_spec 100 (1/10) (fun i => i)
     (by norm_num) (by norm_num) (by norm_num)⟩

/-! ## Hashtag heuristic (`explorations/hashtagExperiment.py`) -/

/-- One entry of the Hashtag Sentiment Table (`models/hashtag.json`):
`{PosFreq, NegFreq, PosRatio, NegRatio}`. -/
structure TagStats where
  PosFreq : ℚ
  NegFreq : ℚ
  PosRatio : ℚ
  NegRatio : ℚ
  deriving DecidableEq, Repr

/-- The hashtag marker character. -/
def hashChar : Char := '#'

/-- Python's `'#' in text` (a one-character substring test is a character
membership test). -/
def containsHash (s : String) : Bool :=
  s.toList.contains hashChar

/-- Embedding of Python's `text.split()`: split on runs of whitespace,
discarding empty tokens.  `acc` holds the current token's characters in
reverse. -/
def pySplitAux : List Char → List Char → List String
  | [], acc => if acc.isEmpty then [] else [String.mk acc.reverse]
  | c :: cs, acc =>
    if c.isWhitespace then
      if acc.isEmpty then pySplitAux cs [] else String.mk acc.reverse :: pySplitAux cs []
    else pySplitAux cs (c :: acc)

def pySplit (s : String) : List String :=
  pySplitAux s.toList []

/-- `_w.startswith('#') and len(_w) > 1` — for such a token, the tag
`_w[1:]` with the marker stripped; otherwise `none`. -/
def tokenTag (w : String) : Option String :=
  match w.toList with
  | c :: rest => if c = hashChar ∧ 1 ≤ rest.length then some (String.mk rest) else none
  | [] => none

/-- The body of the `for _w in text.split()` loop of `predict_by_hashtag`
(lines 69–80): a hashtag-like token whose tag is in the table and passes
both threshold gates adds `NegRatio` to the running negative probability
and `PosRatio` to the running positive probability; every other token
leaves the accumulators `(neg, pos)` unchanged. -/
def hashtagStep (freq_threshold prob_threshold : ℚ)
    (hashtag_dict : List (String × TagStats)) (probs : ℚ × ℚ) (w : String) : ℚ × ℚ :=
  match tokenTag w with
  | none => probs
  | some tag =>
    match hashtag_dict.lookup tag with
    | none => probs
    | some st =>
      if (st.PosFreq > freq_threshold ∨ st.NegFreq > freq_threshold) ∧
          (st.NegRatio > prob_threshold ∨ st.PosRatio > prob_threshold)
      then (probs.1 + st.NegRatio, probs.2 + st.PosRatio)
      else probs

/-- Whether a token changes the accumulators: it is hashtag-like, its tag
is in the table, and it passes both gates. -/
def tokenQualifies (freq_threshold prob_threshold : ℚ)
    (hashtag_dict : List (String × TagStats)) (w : String) : Bool :=
  match tokenTag w with
  | none => false
  | some tag =>
    match hashtag_dict.lookup tag with
    | none => false
    | some st =>
      decide ((st.PosFreq > freq_threshold ∨ st.NegFreq > freq_threshold) ∧
        (st.NegRatio > prob_threshold ∨ st.PosRatio > prob_threshold))

/-- Embedding of `predict_by_hashtag(text, pred_pos_prob, pred_neg_prob,
freq_threshold, prob_threshold)` (lines 65–85).  The hashtag table,
loaded from disk by `load_hashtag_config()`, is a parameter.  The final
`softmax([neg, pos])` followed by `argmax` is embedded as the direct
comparison `pos > neg`: softmax is strictly monotone, so the argmax of
the softmax equals the argmax of the raw accumulators, and `torch.argmax`
returns the first maximal index on ties (index 0, i.e. the negative
class).  Index 0 is mapped to −1, index 1 stays +1. -/
def predict_by_hashtag (hashtag_dict : List (String × TagStats)) (text : String)
    (pred_pos_prob pred_neg_prob freq_threshold prob_threshold : ℚ) : ℤ :=
  let probs := (pySplit text).foldl
    (hashtagStep freq_threshold prob_threshold hashtag_dict)
    (pred_neg_prob, pred_pos_prob)
  if probs.2 > probs.1 then 1 else -1

/-- One row of the joined prediction table, as consumed by
`_hashtag_matters`: `text`, `prediction`, `score`. -/
structure DataRow where
  text : String
  prediction : ℤ
  score : ℚ
  deriving DecidableEq, Repr

/-- Embedding of `_hashtag_matters(data_line, **kwargs)` (lines 88–103):
a row without the marker character passes its prediction through
unchanged; otherwise the class probabilities are derived from `score`
(swapped according to the sign of `prediction`) and re-scored by
`predict_by_hashtag`. -/
def hashtagMattersRow (hashtag_dict : List (String × TagStats))
    (freq_threshold prob_threshold : ℚ) (row : DataRow) : ℤ :=
  if containsHash row.text then
    let probs :=
      if row.prediction = 1 then (row.score, 1 - row.score)
      else (1 - row.score, row.score)
    predict_by_hashtag hashtag_dict row.text probs.1 probs.2
      freq_threshold prob_threshold
  else row.prediction

/-- Embedding of `hashtag_matters(data, **kwargs)` (lines 106–109): maps
`_hashtag_matters` over every row, producing the `new_prediction` column
(the second component of each pair). -/
def hashtag_matters (hashtag_dict : List (String × TagStats))
    (freq_threshold prob_threshold : ℚ) (data : List DataRow) :
    List (DataRow × ℤ) :=
  data.map fun row =>
    (row, hashtagMattersRow hashtag_dict freq_threshold prob_threshold row)

theorem hashtagStep_of_not_qualifies (ft pt : ℚ)
    (dict : List (String × TagStats)) (probs : ℚ × ℚ) (w : String)
    (h : tokenQualifies ft pt dict w = false) :
    hashtagStep ft pt dict probs w = probs := by
  unfold tokenQualifies at h
  unfold hashtagStep
  cases htag : tokenTag w with
  | none => simp only [htag]
  | some tag =>
    simp only [htag] at h ⊢
    cases hst : List.lookup tag dict with
    | none => simp only [hst]
    | some st =>
      simp only [hst] at h ⊢
      simp only [decide_eq_false_iff_not] at h
      rw [if_neg h]

theorem foldl_hashtagStep_const (ft pt : ℚ) (dict : List (String × TagStats)) :
    ∀ (ws : List String) (probs : ℚ × ℚ),
      (∀ w ∈ ws, tokenQualifies ft pt dict w = false) →
      ws.foldl (hashtagStep ft pt dict) probs = probs := by
  intro ws
  induction ws with
  | nil => intro probs _; rfl
  | cons w rest ih =>
    intro probs h
    simp only [List.foldl_cons]
    rw [hashtagStep_of_not_qualifies ft pt dict probs w (h w (List.mem_cons_self w rest))]
    exact ih probs fun x hx => h x (List.mem_cons_of_mem w hx)

/-- **C2 (amended).** (a) A hashtag token whose table entry has `PosFreq`
and `NegFreq` both below `freq_threshold` never contributes to the
accumulated class probabilities, regardless of its ratios.  (b) When no
hashtag token of a row's text qualifies, the adjusted prediction equals
the row's original prediction **provided the row's score exceeds 1/2**
(for a score at or below 1/2 the unchanged accumulators make the argmax
pick the class of the larger accumulator, which need not be the original
prediction — see the counterexample). -/
theorem hashtag_threshold_gating (ft pt : ℚ) (dict : List (String × TagStats)) :
    (∀ (probs : ℚ × ℚ) (w tag : String) (st : TagStats),
        tokenTag w = some tag → List.lookup tag dict = some st →
        st.PosFreq < ft → st.NegFreq < ft →
        hashtagStep ft pt dict probs w = probs) ∧
    (∀ row : DataRow,
        (∀ w ∈ pySplit row.text, tokenQualifies ft pt dict w = false) →
        (row.prediction = 1 ∨ row.prediction = -1) →
        1/2 < row.score →
        hashtagMattersRow dict ft pt row = row.prediction) := by
  constructor
  · intro probs w tag st htag hst hpos hneg
    apply hashtagStep_of_not_qualifies
    unfold tokenQualifies
    simp only [htag, hst, decide_eq_false_iff_not]
    rintro ⟨hfreq, -⟩
    rcases hfreq with h | h
    · exact absurd h (not_lt.mpr (le_of_lt hpos))
    · exact absurd h (not_lt.mpr (le_of_lt hneg))
  · intro row hnq hpm hs
    unfold hashtagMattersRow
    cases hc : containsHash row.text with
    | false => simp only [hc, Bool.false_eq_true, if_false]
    | true =>
      simp only [hc, if_true]
      unfold predict_by_hashtag
      rcases hpm with h1 | h1
      · rw [h1]
        simp only [if_pos rfl]
        rw [foldl_hashtagStep_const ft pt dict _ _ hnq]
        have : row.score > 1 - row.score := by linarith
        simp only [this, if_pos]
      · rw [h1]
        have hne : (-1 : ℤ) ≠ 1 := by decide
        simp only [if_neg hne]
        rw [foldl_hashtagStep_const ft pt dict _ _ hnq]
        have : ¬((1 - row.score) > row.score) := by linarith
        exact if_neg this

theorem hashtagMattersRow_eval_pos (dict : List (String × TagStats)) (ft pt : ℚ)
    (row : DataRow) (hc : containsHash row.text = true)
    (hnq : ∀ w ∈ pySplit row.text, tokenQualifies ft pt dict w = false)
    (h1 : row.prediction = 1) :
    hashtagMattersRow dict ft pt row =
      (if row.score > 1 - row.score then (1 : ℤ) else -1) := by
  unfold hashtagMattersRow
  simp only [hc, if_true, h1, if_pos]
  unfold predict_by_hashtag
  rw [foldl_hashtagStep_const ft pt dict _ _ hnq]

/-- Table entry for C2's concrete inputs: both frequencies are 0, i.e.
below any positive threshold; the ratios are above the 6/10 gate (they
are irrelevant, being freq-gated). -/
def cexStats : TagStats := ⟨0, 0, 1/10, 9/10⟩

/-- A one-entry hashtag table holding the tag `bad`. -/
def cexDict : List (String × TagStats) := [("bad", cexStats)]

/-- A row predicted +1 with score 2/5 whose only hashtag token is `#bad`. -/
def cexRow : DataRow := ⟨"#bad day", 1, 2/5⟩

theorem tokenQualifies_cex_hashbad :
    tokenQualifies 5 (6/10) cexDict "#bad" = false := by
  unfold tokenQualifies
  have htag : tokenTag "#bad" = some "bad" := by decide
  have hlk : List.lookup "bad" cexDict = some cexStats := rfl
  simp only [htag, hlk]
  apply decide_eq_false
  rintro ⟨h | h, -⟩ <;> revert h <;> norm_num [cexStats]

theorem cexRow_noqual :
    ∀ w ∈ pySplit cexRow.text, tokenQualifies 5 (6/10) cexDict w = false := by
  intro w hw
  have hsplit : pySplit cexRow.text = ["#bad", "day"] := by decide
  rw [hsplit] at hw
  simp only [List.mem_cons, List.not_mem_nil, or_false] at hw
  rcases hw with rfl | rfl
  · exact tokenQualifies_cex_hashbad
  · rfl

/-- **C2 counterexample.** The row `"#bad day"` with original prediction
+1 and score 2/5: its only hashtag `#bad` is in the table with both
frequencies (0) below the threshold 5, so no hashtag qualifies — yet the
adjusted prediction is −1, not the original +1.  The claim's "for every
score value" fails for scores not above 1/2. -/
theorem hashtag_gating_cex :
    cexRow.prediction = 1 ∧
    "#bad" ∈ pySplit cexRow.text ∧
    tokenTag "#bad" = some "bad" ∧
    List.lookup "bad" cexDict = some cexStats ∧
    cexStats.PosFreq < 5 ∧ cexStats.NegFreq < 5 ∧
    hashtagMattersRow cexDict 5 (6/10) cexRow = -1 := by
  refine ⟨rfl, by decide, by decide, rfl, by norm_num [cexStats],
    by norm_num [cexStats], ?_⟩
  rw [hashtagMattersRow_eval_pos cexDict 5 (6/10) cexRow (by decide) cexRow_noqual rfl]
  have : ¬(cexRow.score > 1 - cexRow.score) := by norm_num [cexRow]
  exact if_neg this

/-- The passthrough row for C2's witness: score 7/10 > 1/2. -/
def witRowC2 : DataRow := ⟨"#bad night", 1, 7/10⟩

theorem witRowC2_noqual :
    ∀ w ∈ pySplit witRowC2.text, tokenQualifies 5 (6/10) cexDict w = false := by
  intro w hw
  have hsplit : pySplit witRowC2.text = ["#bad", "night"] := by decide
  rw [hsplit] at hw
  simp only [List.mem_cons, List.not_mem_nil, or_false] at hw
  rcases hw with rfl | rfl
  · exact tokenQualifies_cex_hashbad
  · rfl

/-- Witness for `hashtag_threshold_gating`: the freq-gated tag `bad`
contributes nothing to the accumulators, and the row `"#bad night"`
(prediction +1, score 7/10 > 1/2) passes through unchanged. -/
theorem hashtag_threshold_gating_witness :
    (tokenTag "#bad" = some "bad" ∧ List.lookup "bad" cexDict = some cexStats ∧
      cexStats.PosFreq < 5 ∧ cexStats.NegFreq < 5 ∧
      hashtagStep 5 (6/10) cexDict ((0 : ℚ), (0 : ℚ)) "#bad" = ((0 : ℚ), (0 : ℚ))) ∧
    ((1/2 : ℚ) < witRowC2.score ∧
      hashtagMattersRow cexDict 5 (6/10) witRowC2 = witRowC2.prediction) :=
  ⟨⟨by decide, rfl, by norm_num [cexStats], by norm_num [cexStats],
    (hashtag_threshold_gating 5 (6/10) cexDict).1 ((0 : ℚ), (0 : ℚ)) "#bad" "bad" cexStats
      (by decide) rfl (by norm_num [cexStats]) (by norm_num [cexStats])⟩,
   ⟨by norm_num [witRowC2],
    (hashtag_threshold_gating 5 (6/10) cexDict).2 witRowC2 witRowC2_noqual
      (Or.inl rfl) (by norm_num [witRowC2])⟩⟩

/-- **C10.** `predict_by_hashtag` returns −1 or +1 for every input (the
two-way argmax is mapped 0 → −1, 1 → +1); `_hashtag_matters` therefore
returns a value in {−1, +1} for every row whose original prediction is in
{−1, +1}; and the `new_prediction` column produced by `hashtag_matters`
only ever holds −1 or +1. -/
theorem predictions_pm_one :
    (∀ (dict : List (String × TagStats)) (text : String)
        (pred_pos_prob pred_neg_prob ft pt : ℚ),
        predict_by_hashtag dict text pred_pos_prob pred_neg_prob ft pt = 1 ∨
        predict_by_hashtag dict text pred_pos_prob pred_neg_prob ft pt = -1) ∧
    (∀ (dict : List (String × TagStats)) (ft pt : ℚ) (row : DataRow),
        (row.prediction = 1 ∨ row.prediction = -1) →
        (hashtagMattersRow dict ft pt row = 1 ∨
         hashtagMattersRow dict ft pt row = -1)) ∧
    (∀ (dict : List (String × TagStats)) (ft pt : ℚ) (rows : List DataRow),
        (∀ r ∈ rows, r.prediction = 1 ∨ r.prediction = -1) →
        ∀ p ∈ hashtag_matters dict ft pt rows, p.2 = 1 ∨ p.2 = -1) := by
  have hpred : ∀ (dict : List (String × TagStats)) (text : String)
      (pred_pos_prob pred_neg_prob ft pt : ℚ),
      predict_by_hashtag dict text pred_pos_prob pred_neg_prob ft pt = 1 ∨
      predict_by_hashtag dict text pred_pos_prob pred_neg_prob ft pt = -1 := by
    intro dict text pp pn ft pt
    rcases le_or_lt
        ((List.foldl (hashtagStep ft pt dict) (pn, pp) (pySplit text)).2)
        ((List.foldl (hashtagStep ft pt dict) (pn, pp) (pySplit text)).1) with h | h
    · exact Or.inr (if_neg (not_lt.mpr h))
    · exact Or.inl (if_pos h)
  have hrow : ∀ (dict : List (String × TagStats)) (ft pt : ℚ) (row : DataRow),
      (row.prediction = 1 ∨ row.prediction = -1) →
      (hashtagMattersRow dict ft pt row = 1 ∨
       hashtagMattersRow dict ft pt row = -1) := by
    intro dict ft pt row hpm
    unfold hashtagMattersRow
    cases hc : containsHash row.text with
    | false => simpa only [hc, Bool.false_eq_true, if_false] using hpm
    | true =>
      simp only [hc, if_true]
      exact hpred dict row.text _ _ ft pt
  refine ⟨hpred, hrow, ?_⟩
  intro dict ft pt rows hrows p hp
  unfold hashtag_matters at hp
  simp only [List.mem_map] at hp
  obtain ⟨r, hr, rfl⟩ := hp
  exact hrow dict ft pt r (hrows r hr)

/-- Witness for `predictions_pm_one`: a two-row table (one row with a
hashtag, one without). -/
theorem predictions_pm_one_witness :
    (∀ r ∈ [cexRow, DataRow.mk "hello" (-1) (3/4)],
        r.prediction = 1 ∨ r.prediction = -1) ∧
    (∀ p ∈ hashtag_matters cexDict 5 (6/10) [cexRow, DataRow.mk "hello" (-1) (3/4)],
        p.2 = 1 ∨ p.2 = -1) :=
  ⟨by decide,
   predictions_pm_one.2.2 cexDict 5 (6/10) [cexRow, DataRow.mk "hello" (-1) (3/4)]
     (by decide)⟩

/-! ## Hyperparameter-value resolver (`experiment.py`,
`getHypervisorFunction` / `getHyperoptValue`) -/

/-- The fixed table of the ten supported search-space constructors
(lines 151–162 of `experiment.py`). -/
def hpFunctionNames : List String :=
  ["normal", "lognormal", "loguniform", "qlognormal", "qnormal",
   "randint", "uniform", "uniformint", "choice", "pchoice"]

/-- Embedding of `getHypervisorFunction(funcName)`: returns the chosen
constructor (represented by its name, to be applied by the caller);
`assert funcName in d.keys()` fails with `AssertionError` for an
unsupported name. -/
def getHypervisorFunction (funcName : String) : Except PyError String :=
  if hpFunctionNames.contains funcName then .ok funcName else .error .assertionError

/-- A search-space node `hpfunc(name, **arguments)`: the label passed to
the constructor, the constructor used, and its keyword arguments. -/
structure SearchNode where
  label : String
  func : String
  args : List (String × ℚ)
  deriving DecidableEq, Repr

/-- A dictionary value examined by `getHyperoptValue`: the three
distinguished keys (each possibly absent) plus any other keys. -/
structure HDict where
  use_hyperopt : Option Bool
  hyperopt_function : Option String
  arguments : Option (List (String × ℚ))
  otherKeys : List String
  deriving DecidableEq, Repr

/-- A configuration value: a non-mapping scalar (number or string) or a
mapping. -/
inductive HVal where
  | scalar (q : ℚ)
  | strval (s : String)
  | dict (d : HDict)
  deriving DecidableEq, Repr

/-- The result of `getHyperoptValue`: either the value passed through
unchanged, or a one-entry mapping `{name: searchNode}`. -/
inductive HRes where
  | unchanged (v : HVal)
  | spaceEntry (name : String) (node : SearchNode)
  deriving DecidableEq, Repr

/-- Embedding of `getHyperoptValue(name, val)` (lines 167–187).
`answers = [k in val.keys() for k in [USE_HYPEROPT, HYPEROPT_FUNC,
HYPEROPT_ARGS]]`; `np.all(answers)` → a full descriptor: if
`val["use_hyperopt"]` is true, build `{name: hpfunc(name, **arguments)}`,
else `assert(False)`; otherwise `assert not np.any(answers)` (fails when
only some keys are present) and return `val` unchanged.  Non-dict values
are returned unchanged. -/
def getHyperoptValue (name : String) (val : HVal) : Except PyError HRes :=
  match val with
  | .dict d =>
    let answers : List Bool :=
      [d.use_hyperopt.isSome, d.hyperopt_function.isSome, d.arguments.isSome]
    if answers.all id then
      if d.use_hyperopt.getD false then
        match getHypervisorFunction (d.hyperopt_function.getD "") with
        | .ok hpfunc => .ok (.spaceEntry name ⟨name, hpfunc, d.arguments.getD []⟩)
        | .error e => .error e
      else .error .assertionError
    else if answers.any id then .error .assertionError
    else .ok (.unchanged val)
  | v => .ok (.unchanged v)

/-- **C5.** A full descriptor with `use_hyperopt: true` (and a supported
function) resolves to the one-entry mapping `{name: node}`; a full
descriptor with `use_hyperopt: false` halts with a fatal assertion; a
mapping with some but not all of the three keys halts with a fatal
assertion; a non-mapping value is returned unchanged. -/
theorem getHyperoptValue_spec :
    (∀ (name f : String) (args : List (String × ℚ)) (rest : List String),
        hpFunctionNames.contains f = true →
        getHyperoptValue name (.dict ⟨some true, some f, some args, rest⟩) =
          .ok (.spaceEntry name ⟨name, f, args⟩)) ∧
    (∀ (name f : String) (args : List (String × ℚ)) (rest : List String),
        getHyperoptValue name (.dict ⟨some false, some f, some args, rest⟩) =
          .error .assertionError) ∧
    (∀ (name : String) (d : HDict),
        [d.use_hyperopt.isSome, d.hyperopt_function.isSome, d.arguments.isSome].any id
          = true →
        [d.use_hyperopt.isSome, d.hyperopt_function.isSome, d.arguments.isSome].all id
          = false →
        getHyperoptValue name (.dict d) = .error .assertionError) ∧
    (∀ (name : String) (q : ℚ),
        getHyperoptValue name (.scalar q) = .ok (.unchanged (.scalar q))) ∧
    (∀ (name s : String),
        getHyperoptValue name (.strval s) = .ok (.unchanged (.strval s))) := by
  refine ⟨?_, ?_, ?_, fun name q => rfl, fun name s => rfl⟩
  · intro name f args rest hf
    simp only [getHyperoptValue, getHypervisorFunction, hf, Option.isSome_some,
      List.all_cons, List.all_nil, Bool.and_self, id, if_true, Option.getD_some]
  · intro name f args rest
    rfl
  · intro name d hany hall
    obtain ⟨u, f, a, rest⟩ := d
    simp only [getHyperoptValue]
    cases u <;> cases f <;> cases a <;> simp_all

/-- Witness for `getHyperoptValue_spec`, at the spec's testable property
4: `{use_hyperopt: true, hyperopt_function: "uniform", arguments:
{low: 0, high: 1}}` resolves to a one-entry mapping; `use_hyperopt:
false` and a missing `arguments` key are fatal; the scalar 5 passes
through. -/
theorem getHyperoptValue_spec_witness :
    (hpFunctionNames.contains "uniform" = true ∧
      getHyperoptValue "lr"
        (.dict ⟨some true, some "uniform", some [("low", 0), ("high", 1)], []⟩) =
        .ok (.spaceEntry "lr" ⟨"lr", "uniform", [("low", 0), ("high", 1)]⟩)) ∧
    getHyperoptValue "lr"
      (.dict ⟨some false, some "uniform", some [("low", 0), ("high", 1)], []⟩) =
      .error .assertionError ∧
    ([(some true : Option Bool).isSome, (some "uniform" : Option String).isSome,
        (none : Option (List (String × ℚ))).isSome].any id = true ∧
      [(some true : Option Bool).isSome, (some "uniform" : Option String).isSome,
        (none : Option (List (String × ℚ))).isSome].all id = false ∧
      getHyperoptValue "lr" (.dict ⟨some true, some "uniform", none, []⟩) =
        .error .assertionError) ∧
    getHyperoptValue "lr" (.scalar 5) = .ok (.unchanged (.scalar 5)) :=
  ⟨⟨by decide, getHyperoptValue_spec.1 "lr" "uniform" [("low", 0), ("high", 1)] []
      (by decide)⟩,
   getHyperoptValue_spec.2.1 "lr" "uniform" [("low", 0), ("high", 1)] [],
   ⟨by decide, by decide,
    getHyperoptValue_spec.2.2.1 "lr" ⟨some true, some "uniform", none, []⟩
      (by decide) (by decide)⟩,
   getHyperoptValue_spec.2.2.2.1 "lr" 5⟩

/-! ## The hyperparameter-search branch of `launchExperimentFromDict`
(`experiment.py`, lines 114–147) -/

/-- Embedding of the objective `getEvalsError(args)` defined inside
`launchExperimentFromDict`: it calls `model.trainModel` (a parameter
here), binds the result to the **local** variable `evals`, and returns
`100 - np.sum(evals) / np.size(evals)`.  The binding of `evals` lives in
this function's own scope only. -/
def getEvalsError (trainModel : List (String × ℚ) → List ℚ)
    (args : List (String × ℚ)) : ℚ :=
  let evals := trainModel args
  100 - evals.sum / (evals.length : ℚ)

/-- The `hyperopt.fmin` driver (external library, boundary): it evaluates
the objective on `max_evals` sampled trial argument sets, sequentially. -/
def fminTrials (objective : List (String × ℚ) → ℚ)
    (sampler : ℕ → List (String × ℚ)) (max_evals : ℕ) : List ℚ :=
  (List.range max_evals).map fun i => objective (sampler i)

/-- The names bound in `launchExperimentFromDict`'s own scope (its
parameters and every name its body assigns).  `evals` is **not** among
them: it is assigned only inside the nested `getEvalsError`. -/
def launchLocalNames : List String :=
  ["d", "reportPath", "model", "model_name_or_path", "hyperoptActive",
   "space", "getEvalsError", "bestHyperparametersDict", "best_model_metric"]

/-- The module-level names of `experiment.py` (its imports and top-level
definitions). -/
def experimentGlobalNames : List String :=
  ["dt", "enum", "json", "os", "sys", "Tuple", "hyperopt", "np", "list_metrics",
   "ModelConstruction", "TransformersModel", "ModelType", "TokenizerType",
   "report", "processTransformersLog", "launchExperimentFromDict",
   "getHypervisorFunction", "getHyperoptValue", "launchExperimentFromJson", "main"]

/-- Python name resolution for an expression inside
`launchExperimentFromDict`'s body: a name is found if it is a local of
the function or a module global (for a name never assigned in the
function, CPython emits a plain global load — looking in the locals too
only makes this model more permissive); otherwise evaluating it raises
`NameError`. -/
def resolveName (n : String) : Except PyError Unit :=
  if launchLocalNames.contains n || experimentGlobalNames.contains n then .ok ()
  else .error .nameError

/-- Embedding of the `use_hyperopt` branch of `launchExperimentFromDict`
(lines 114–147): build the space (not modelled further), run
`hyperopt.fmin(getEvalsError, space, ..., max_evals=...)`, then call
`report(info={**bestHyperparametersDict, "results": evals, ...})`.
Building the info record evaluates the name `evals` in the enclosing
function's scope; the success continuation appends the report built from
`bestHyperparametersDict` (the `"results"`/`"output_dir"`/`"time_stamp"`
fields are never constructed because the lookup of `evals` fails
first). -/
def launchHyperoptBranch (trainModel : List (String × ℚ) → List ℚ)
    (sampler : ℕ → List (String × ℚ)) (max_evals : ℕ)
    (bestHyperparametersDict : List (String × ℚ))
    (log : Option (ReportDoc (List (String × ℚ)))) :
    Except PyError (Option (ReportDoc (List (String × ℚ)))) :=
  let _trials := fminTrials (getEvalsError trainModel) sampler max_evals
  match resolveName "evals" with
  | .ok _ => .ok (some (report bestHyperparametersDict log))
  | .error e => .error e

/-- **C1** fails on the code: after the search minimizer completes, the
run never appends a report.  The name `evals` is local to the objective
`getEvalsError`, not to the enclosing `launchExperimentFromDict`, so the
`report(info={..., "results": evals, ...})` call raises `NameError` for
every configuration with `use_hyperopt` true, and the report log is left
untouched. -/
theorem launchHyperopt_raises_nameError
    (trainModel : List (String × ℚ) → List ℚ)
    (sampler : ℕ → List (String × ℚ)) (max_evals : ℕ)
    (bestHyperparametersDict : List (String × ℚ))
    (log : Option (ReportDoc (List (String × ℚ)))) :
    launchHyperoptBranch trainModel sampler max_evals bestHyperparametersDict log =
      .error .nameError := rfl

/-! ## Submission file (`transformersPredictWithHashtag.py`,
method `submissionToFile`) -/

/-- One row of the predictor's held prediction table
(`self.pred_df`): `id`, `score`, `prediction`, `text`, and the
`new_prediction` column added by `hashtag_matters`. -/
structure PredRow where
  id : ℤ
  score : ℚ
  prediction : ℤ
  text : String
  new_prediction : ℤ
  deriving DecidableEq, Repr

/-- Ordering of submission rows by their `Id` column
(`pred_df.sort_values('Id')`). -/
def idLE (a b : ℤ × ℤ) : Prop := a.1 ≤ b.1

instance : DecidableRel idLE := fun a b => Int.decLe a.1 b.1

instance : IsTotal (ℤ × ℤ) idLE := ⟨fun a b => Int.le_total a.1 b.1⟩

instance : IsTrans (ℤ × ℤ) idLE := ⟨fun _ _ _ => Int.le_trans⟩

/-- The two-column table `{Id: int, Prediction: int}` built by
`submissionToFile` (lines 56–62): `Id` from each row's `id`,
`Prediction` from each row's `new_prediction` (cast to integer by
`astype`), sorted ascending by `Id`. -/
def submissionPairs (rows : List PredRow) : List (ℤ × ℤ) :=
  List.insertionSort idLE (rows.map fun r => (r.id, r.new_prediction))

/-- Embedding of `submissionToFile` (lines 45–65), as the lines of the
comma-separated file written by `pred_df.to_csv(save_path, index=False)`:
the header `Id,Prediction` followed by one `<Id>,<Prediction>` line per
row — two columns, no row-index column. -/
def submissionToFile (rows : List PredRow) : List String :=
  "Id,Prediction" ::
    (submissionPairs rows).map fun p => toString p.1 ++ "," ++ toString p.2

/-- **C8.** The submission file has exactly the header `Id,Prediction`,
one data row per prediction row (and nothing else), rows sorted ascending
by Id, the data rows being exactly the `(id, new_prediction)` pairs of
the table (so each `Prediction` is the row's `new_prediction` cast to
integer), and every `Prediction` in {−1, +1} when every `new_prediction`
is ±1. -/
theorem submissionToFile_spec (rows : List PredRow)
    (hpm : ∀ r ∈ rows, r.new_prediction = 1 ∨ r.new_prediction = -1) :
    (submissionToFile rows).head? = some "Id,Prediction" ∧
    (submissionToFile rows).length = rows.length + 1 ∧
    List.Sorted idLE (submissionPairs rows) ∧
    (submissionPairs rows).Perm (rows.map fun r => (r.id, r.new_prediction)) ∧
    (∀ p ∈ submissionPairs rows, p.2 = 1 ∨ p.2 = -1) := by
  have hperm : (submissionPairs rows).Perm (rows.map fun r => (r.id, r.new_prediction)) :=
    List.perm_insertionSort idLE _
  refine ⟨rfl, ?_, List.sorted_insertionSort idLE _, hperm, ?_⟩
  · simp only [submissionToFile, List.length_cons, List.length_map]
    rw [hperm.length_eq, List.length_map]
  · intro p hp
    have hmem : p ∈ rows.map fun r => (r.id, r.new_prediction) := hperm.mem_iff.mp hp
    simp only [List.mem_map] at hmem
    obtain ⟨r, hr, rfl⟩ := hmem
    exact hpm r hr

/-- A five-row prediction table with unsorted ids, as in the spec's
testable property 9. -/
def witRowsC8 : List PredRow :=
  [⟨42, 1/2, 1, "a", 1⟩, ⟨7, 3/4, -1, "b", -1⟩, ⟨19, 1/4, 1, "#c", -1⟩,
   ⟨3, 9/10, -1, "d", -1⟩, ⟨25, 2/3, 1, "e", 1⟩]

/-- Witness for `submissionToFile_spec` on the five-row table. -/
theorem submissionToFile_spec_witness :
    (∀ r ∈ witRowsC8, r.new_prediction = 1 ∨ r.new_prediction = -1) ∧
    ((submissionToFile witRowsC8).head? = some "Id,Prediction" ∧
      (submissionToFile witRowsC8).length = witRowsC8.length + 1 ∧
      List.Sorted idLE (submissionPairs witRowsC8) ∧
      (submissionPairs witRowsC8).Perm
        (witRowsC8.map fun r => (r.id, r.new_prediction)) ∧
      (∀ p ∈ submissionPairs witRowsC8, p.2 = 1 ∨ p.2 = -1)) :=
  ⟨by decide, submissionToFile_spec witRowsC8 (by decide)⟩
